import Mathlib

set_option maxRecDepth 100000

/-!
Shallow embedding of `scripts/sync_leetcode.py`, a single-file incremental
sync utility.  The script lists remote submissions, diffs them against a
persisted set of processed ids, fetches details for the new ids oldest
first, filters by acceptance status, writes one artifact file per kept
submission, and finally rewrites the checkpoint.

Modelling conventions:
  * Submission ids are modelled in their decimal-string form, which is how
    the GraphQL JSON delivers them; the scripts `str(sid)` is then the
    identity, and `sid` is used directly in file names and in the
    processed set.
  * Network effects are oracles: the lister is an `Except Unit` outcome
    (exception or list of summaries) and the per-id detail fetch is a
    function `String -> FetchResult`.
  * `time.localtime`/`time.strftime` are an ambient function
    `tf : Int -> String` and `int(time.time())` an ambient `now : Int`,
    passed explicitly; both belong to the process environment of a run.
  * JSON fields that may be missing are `Option`; a JSON value that is
    present but `null` is conflated with a missing key (the two differ in
    Python only for keys read with `.get(k, default)` on a present-null
    value, a case no claim depends on).
  * File-system writes are a trace of `(sid, path, content)` events;
    directory creation is not modelled (no claim mentions directories).
-/

/-- Question record inside a submission detail
(`title`, `titleSlug`, `questionFrontendId` in the GraphQL query). -/
structure Question where
  title : Option String
  titleSlug : Option String
  questionFrontendId : Option String
deriving Repr, DecidableEq

/-- Submission detail as returned by `fetch_submission_detail`
(fields of the `submissionDetail` GraphQL query; the `id` field is unused
by `main`, which keys everything on the id it already has). -/
structure SubmissionDetail where
  code : Option String
  runtime : Option String
  memory : Option String
  statusDisplay : Option String
  lang : Option String
  timestamp : Option Int
  question : Option Question
deriving Repr, DecidableEq

/-- Submission summary as returned by the lister.  `main` reads only
`s["id"]` from each summary; the other listed fields (statusDisplay,
lang, timestamp, question) are never used and are omitted here. -/
structure SubmissionSummary where
  id : String
deriving Repr, DecidableEq

/-- Outcome of one `fetch_submission_detail(sid)` call as seen by the
caller in `main`: the call raises (network or decode error), returns a
falsy value (no record), or returns a detail record. -/
inductive FetchResult where
  | err : FetchResult
  | missing : FetchResult
  | found : SubmissionDetail → FetchResult
deriving Repr, DecidableEq

/-- Python `str(x)` applied to an optional string in an f-string:
`None` renders as the text `None`. -/
def fstr : Option String → String
  | none => "None"
  | some s => s

/-- Python `x or ""` on an optional string field. -/
def pyOr (o : Option String) : String := o.getD ""

/-- Python `s.lower()`: lower-case every character (the language tags at
issue are ASCII, where `Char.toLower` agrees with Python). -/
def pyLower (s : String) : String := String.mk (s.data.map Char.toLower)

/-- Python `int(s)` on the decimal-numeral strings held by the
checkpoint (the only values it ever contains, since they are produced by
`str` on the listed ids; Python would raise on anything else). -/
def pyIntKey (s : String) : Nat :=
  s.data.foldl (fun n c => n * 10 + (c.toNat - 48)) 0

/-- Split a character list at every occurrence of `c`
(Python `split` semantics: n separators yield n + 1 pieces). -/
def splitChar (c : Char) : List Char → List (List Char)
  | [] => [[]]
  | x :: xs =>
    match splitChar c xs with
    | [] => [[]]
    | h :: t => if x = c then [] :: h :: t else (x :: h) :: t

/-- Python `content.split("\n")`: the lines of a file content. -/
def pyLines (s : String) : List String := (splitChar (Char.ofNat 10) s.data).map String.mk

/-- Python `sep.join(lines)`. -/
def pyJoin (sep : String) : List String → String
  | [] => ""
  | [x] => x
  | x :: y :: xs => x ++ sep ++ pyJoin sep (y :: xs)

/-- The `LANG_EXT` table of the script: language tag to
(file extension, header comment leader). -/
def LANG_EXT : List (String × String × String) :=
  [("python3", ("py", "#")),
   ("python", ("py", "#")),
   ("cpp", ("cpp", "//")),
   ("c++", ("cpp", "//")),
   ("java", ("java", "//")),
   ("javascript", ("js", "//")),
   ("js", ("js", "//")),
   ("c", ("c", "//")),
   ("c#", ("cs", "//")),
   ("csharp", ("cs", "//")),
   ("ruby", ("rb", "#")),
   ("swift", ("swift", "//")),
   ("go", ("go", "//")),
   ("golang", ("go", "//")),
   ("kotlin", ("kt", "//")),
   ("scala", ("scala", "//"))]

/-- `LANG_EXT.get(lang, ("txt", "//"))` of the script. -/
def langLookup (lang : String) : String × String :=
  (LANG_EXT.lookup lang).getD ("txt", "//")

/-- `make_header` of the script.  `tf` stands for the composite
`time.strftime("%Y-%m-%d %H:%M:%S", time.localtime(ts))`; `pfx` is the
comment leader (named `prefix` in the source, a reserved word here).
The status, language, runtime and memory arguments are the optional
values `main` passes straight from the detail record; the f-strings of
the source render a missing one as `None`, which `fstr` mirrors.
The trailing `""` element of the source list makes the joined header end
with a single newline character. -/
def make_header (tf : Int → String) (pfx title slug qid sub_id : String)
    (status lang runtime memory : Option String) (ts : Int) : String :=
  pyJoin "\n"
    [pfx ++ " Title: " ++ title,
     pfx ++ " URL: https://leetcode.com/problems/" ++ slug ++ "/",
     pfx ++ " Question ID: " ++ qid,
     pfx ++ " Submission ID: " ++ sub_id,
     pfx ++ " Status: " ++ fstr status,
     pfx ++ " Language: " ++ fstr lang,
     pfx ++ " Runtime: " ++ fstr runtime,
     pfx ++ " Memory: " ++ fstr memory,
     pfx ++ " Timestamp: " ++ tf ts,
     ""]

/-- The artifact produced for one written submission: the body of the
non-filtered branch of the loop in `main` (question unpacking, language
lookup, path derivation, header and content assembly), returning
(file path, file content). -/
def writeEntry (tf : Int → String) (now : Int) (sid : String)
    (d : SubmissionDetail) : String × String :=
  let q := d.question.getD ⟨none, none, none⟩
  let title := q.title.getD "unknown-title"
  let slug := q.titleSlug.getD ("unknown-" ++ q.questionFrontendId.getD "")
  let qid := q.questionFrontendId.getD ""
  let codeStr := pyOr d.code
  let lang := pyLower (pyOr d.lang)
  let ep := langLookup lang
  let folder := "leetcode" ++ "/" ++ qid ++ "_" ++ slug
  let filename := folder ++ "/" ++ qid ++ "-" ++ slug ++ "-" ++ sid ++ "." ++ ep.1
  let ts : Int :=
    match d.timestamp with
    | none => now
    | some t => if t = 0 then now else t
  let header := make_header tf ep.2 title slug qid sid
    d.statusDisplay d.lang d.runtime d.memory ts
  (filename, header ++ codeStr)

/-- `processed.add(str(sid))` on the in-memory set, modelled as a list
with membership-respecting insertion. -/
def addId (l : List String) (x : String) : List String :=
  if x ∈ l then l else x :: l

/-- Accumulator of the per-id loop of `main`: ids visited so far (in
visit order), file-write events so far (in write order), and the
in-memory processed set. -/
structure LoopAcc where
  trace : List String
  writes : List (String × String × String)
  processed : List String
deriving Repr, DecidableEq

/-- One iteration of the `for sid in reversed(new_ids)` loop of `main`:
fetch the detail (oracle `fetch`), skip on exception or missing record,
otherwise either permanently skip a non-accepted submission (marking it
processed) or write its artifact and mark it processed. -/
def processSubmission (tf : Int → String) (now : Int) (onlyAccepted : Bool)
    (fetch : String → FetchResult) (acc : LoopAcc) (sid : String) : LoopAcc :=
  let acc1 : LoopAcc := ⟨acc.trace ++ [sid], acc.writes, acc.processed⟩
  match fetch sid with
  | .err => acc1
  | .missing => acc1
  | .found d =>
    if onlyAccepted && (d.statusDisplay != some "Accepted") then
      ⟨acc1.trace, acc1.writes, addId acc1.processed sid⟩
    else
      let fc := writeEntry tf now sid d
      ⟨acc1.trace, acc1.writes ++ [(sid, fc.1, fc.2)], addId acc1.processed sid⟩

/-- `[s["id"] for s in subs if str(s["id"]) not in processed]` of `main`. -/
def new_ids (subs : List SubmissionSummary) (processed : List String) : List String :=
  (subs.filter (fun s => !(processed.contains s.id))).map SubmissionSummary.id

/-- Insertion into a list sorted by `pyIntKey` (ascending). -/
def insertByKey (x : String) : List String → List String
  | [] => [x]
  | y :: ys => if pyIntKey x ≤ pyIntKey y then x :: y :: ys else y :: insertByKey x ys

/-- `sorted(list(processed), key=int)` of `main`. -/
def sortedByIntKey (l : List String) : List String := l.foldr insertByKey []

/-- Observable outcome of one invocation of `main` (after state load):
ids visited in order, file-write events in order, final in-memory
processed set, the id list written to the checkpoint (`none` when the
run never reaches `save_state`), and whether the process exits
normally (exit code 0). -/
structure RunResult where
  trace : List String
  writes : List (String × String × String)
  processed : List String
  saved : Option (List String)
  exitOk : Bool
deriving Repr, DecidableEq

/-- `main` of the script, given the loaded processed set, the outcome of
`fetch_submission_pages` (an uncaught exception aborts the run), and the
detail-fetch oracle.  An empty new-id list returns before any write and
before `save_state`; otherwise the loop runs and the sorted processed
set is saved at the end. -/
def runMain (tf : Int → String) (now : Int) (onlyAccepted : Bool)
    (processed0 : List String)
    (listing : Except Unit (List SubmissionSummary))
    (fetch : String → FetchResult) : RunResult :=
  match listing with
  | .error _ => ⟨[], [], processed0, none, false⟩
  | .ok subs =>
    let ids := new_ids subs processed0
    if ids.isEmpty then
      ⟨[], [], processed0, none, true⟩
    else
      let r := ids.reverse.foldl (processSubmission tf now onlyAccepted fetch) ⟨[], [], processed0⟩
      ⟨r.trace, r.writes, r.processed, some (sortedByIntKey r.processed), true⟩

/-- `fetch_submission_pages` of the script, over a page oracle
`remote : offset -> (page, hasNext) or exception`, with explicit fuel
bounding the number of pages (the source loops `while True`); `none`
means the fuel did not determine an outcome.  An empty page or a false
`hasNext` flag ends the pagination. -/
def fetchPagesAux (remote : Nat → Except Unit (List SubmissionSummary × Bool)) :
    Nat → Nat → List SubmissionSummary → Option (Except Unit (List SubmissionSummary))
  | 0, _, _ => none
  | fuel + 1, offset, acc =>
    match remote offset with
    | .error _ => some (.error ())
    | .ok pg =>
      if pg.1.isEmpty then some (.ok acc)
      else if pg.2 then fetchPagesAux remote fuel (offset + pg.1.length) (acc ++ pg.1)
      else some (.ok (acc ++ pg.1))

/-- `fetch_submission_pages()` from offset 0 with an empty accumulator. -/
def fetch_submission_pages (remote : Nat → Except Unit (List SubmissionSummary × Bool))
    (fuel : Nat) : Option (Except Unit (List SubmissionSummary)) :=
  fetchPagesAux remote fuel 0 []

/-- The whole script run: pagination feeding `main`; `none` when the
pagination fuel ran out before the lister finished. -/
def full_run (tf : Int → String) (now : Int) (onlyAccepted : Bool)
    (processed0 : List String)
    (remote : Nat → Except Unit (List SubmissionSummary × Bool)) (fuel : Nat)
    (fetch : String → FetchResult) : Option RunResult :=
  (fetch_submission_pages remote fuel).map
    (fun listing => runMain tf now onlyAccepted processed0 listing fetch)

/-! ### Concrete fixtures used in counterexamples and witnesses -/

/-- A fixed local-time renderer, standing for one concrete process
environment (one time zone, one strftime result per instant). -/
def tfDemo : Int → String := fun _ => "2024-01-01 00:00:00"

/-- A local-time renderer that prints the raw epoch value, making the
dependence of the header on the rendered instant visible. -/
def tfCount : Int → String := fun i => toString i

/-- The accepted python3 submission of the spec example: question 1,
slug two-sum, submission id 999. -/
def detTwoSum : SubmissionDetail :=
  ⟨some "class Solution:\n    pass", some "52 ms", some "15 MB",
   some "Accepted", some "python3", some 1600000000,
   some ⟨some "Two Sum", some "two-sum", some "1"⟩⟩

/-- The artifact content the script actually produces for `detTwoSum`
under `tfDemo`: nine metadata lines, each ended by one newline, then the
code immediately. -/
def contentTwoSum : String :=
  "# Title: Two Sum\n# URL: https://leetcode.com/problems/two-sum/\n# Question ID: 1\n# Submission ID: 999\n# Status: Accepted\n# Language: python3\n# Runtime: 52 ms\n# Memory: 15 MB\n# Timestamp: 2024-01-01 00:00:00\nclass Solution:\n    pass"

/-- The content the claim describes for the same detail: the same nine
metadata lines, then a blank line, then the code. -/
def contentTwoSumClaimed : String :=
  "# Title: Two Sum\n# URL: https://leetcode.com/problems/two-sum/\n# Question ID: 1\n# Submission ID: 999\n# Status: Accepted\n# Language: python3\n# Runtime: 52 ms\n# Memory: 15 MB\n# Timestamp: 2024-01-01 00:00:00\n\nclass Solution:\n    pass"

/-- An accepted detail whose `timestamp` field is absent, so the script
falls back to `int(time.time())`. -/
def detNoTimestamp : SubmissionDetail :=
  ⟨some "x", some "r", some "m", some "Accepted", some "python3", none,
   some ⟨some "T", some "s", some "9"⟩⟩

/-- A detail with status Wrong Answer (not accepted). -/
def detWrong : SubmissionDetail :=
  ⟨some "c", none, none, some "Wrong Answer", some "python3", some 100,
   some ⟨some "T", some "s", some "9"⟩⟩

/-! ### Helper lemmas about the loop -/

theorem mem_addId {x y : String} {l : List String} :
    x ∈ addId l y ↔ x = y ∨ x ∈ l := by
  by_cases hy : y ∈ l
  · simp only [addId, if_pos hy]
    constructor
    · exact Or.inr
    · rintro (rfl | h)
      · exact hy
      · exact h
  · simp [addId, if_neg hy]

theorem mem_insertByKey {x y : String} {l : List String} :
    y ∈ insertByKey x l ↔ y = x ∨ y ∈ l := by
  induction l with
  | nil => simp [insertByKey]
  | cons z zs ih =>
    unfold insertByKey
    split
    · simp [List.mem_cons]
    · simp only [List.mem_cons, ih]
      tauto

theorem mem_sortedByIntKey {y : String} {l : List String} :
    y ∈ sortedByIntKey l ↔ y ∈ l := by
  induction l with
  | nil => simp [sortedByIntKey]
  | cons z zs ih =>
    have h : sortedByIntKey (z :: zs) = insertByKey z (sortedByIntKey zs) := rfl
    rw [h, mem_insertByKey, ih]
    simp [List.mem_cons]

theorem mem_new_ids {sid : String} {subs : List SubmissionSummary} {p : List String} :
    sid ∈ new_ids subs p ↔ (∃ s ∈ subs, s.id = sid) ∧ sid ∉ p := by
  simp only [new_ids, List.mem_map, List.mem_filter, Bool.not_eq_eq_eq_not, Bool.not_true,
    List.contains]
  constructor
  · rintro ⟨s, ⟨hs, hc⟩, rfl⟩
    refine ⟨⟨s, hs, rfl⟩, fun hmem => ?_⟩
    rw [List.elem_iff.mpr hmem] at hc
    cases hc
  · rintro ⟨⟨s, hs, rfl⟩, hnp⟩
    refine ⟨s, ⟨hs, ?_⟩, rfl⟩
    cases h : List.elem s.id p
    · rfl
    · exact absurd (List.elem_iff.mp h) hnp

theorem processSubmission_err {tf : Int → String} {now : Int} {oa : Bool}
    {fetch : String → FetchResult} {acc : LoopAcc} {sid : String}
    (h : fetch sid = .err) :
    processSubmission tf now oa fetch acc sid =
      ⟨acc.trace ++ [sid], acc.writes, acc.processed⟩ := by
  unfold processSubmission
  rw [h]

theorem processSubmission_missing {tf : Int → String} {now : Int} {oa : Bool}
    {fetch : String → FetchResult} {acc : LoopAcc} {sid : String}
    (h : fetch sid = .missing) :
    processSubmission tf now oa fetch acc sid =
      ⟨acc.trace ++ [sid], acc.writes, acc.processed⟩ := by
  unfold processSubmission
  rw [h]

theorem processSubmission_found_filtered {tf : Int → String} {now : Int} {oa : Bool}
    {fetch : String → FetchResult} {acc : LoopAcc} {sid : String}
    {d : SubmissionDetail}
    (h : fetch sid = .found d)
    (hs : (oa && (d.statusDisplay != some "Accepted")) = true) :
    processSubmission tf now oa fetch acc sid =
      ⟨acc.trace ++ [sid], acc.writes, addId acc.processed sid⟩ := by
  unfold processSubmission
  rw [h]
  simp only [hs, if_true]

theorem processSubmission_found_write {tf : Int → String} {now : Int} {oa : Bool}
    {fetch : String → FetchResult} {acc : LoopAcc} {sid : String}
    {d : SubmissionDetail}
    (h : fetch sid = .found d)
    (hs : (oa && (d.statusDisplay != some "Accepted")) = false) :
    processSubmission tf now oa fetch acc sid =
      ⟨acc.trace ++ [sid],
       acc.writes ++ [(sid, (writeEntry tf now sid d).1, (writeEntry tf now sid d).2)],
       addId acc.processed sid⟩ := by
  unfold processSubmission
  rw [h]
  simp only [hs, Bool.false_eq_true, if_false]

theorem processSubmission_trace (tf : Int → String) (now : Int) (oa : Bool)
    (fetch : String → FetchResult) (acc : LoopAcc) (sid : String) :
    (processSubmission tf now oa fetch acc sid).trace = acc.trace ++ [sid] := by
  cases h : fetch sid with
  | err => rw [processSubmission_err h]
  | missing => rw [processSubmission_missing h]
  | found d =>
    cases hs : (oa && (d.statusDisplay != some "Accepted")) with
    | true => rw [processSubmission_found_filtered h hs]
    | false => rw [processSubmission_found_write h hs]

theorem foldl_trace (tf : Int → String) (now : Int) (oa : Bool)
    (fetch : String → FetchResult) (l : List String) (acc : LoopAcc) :
    (l.foldl (processSubmission tf now oa fetch) acc).trace = acc.trace ++ l := by
  induction l generalizing acc with
  | nil => simp
  | cons x xs ih =>
    simp only [List.foldl_cons, ih, processSubmission_trace, List.append_assoc,
      List.singleton_append]

theorem processSubmission_processed_mono (tf : Int → String) (now : Int) (oa : Bool)
    (fetch : String → FetchResult) (acc : LoopAcc) (sid x : String)
    (hx : x ∈ acc.processed) :
    x ∈ (processSubmission tf now oa fetch acc sid).processed := by
  cases h : fetch sid with
  | err => rw [processSubmission_err h]; exact hx
  | missing => rw [processSubmission_missing h]; exact hx
  | found d =>
    cases hs : (oa && (d.statusDisplay != some "Accepted")) with
    | true =>
      rw [processSubmission_found_filtered h hs]
      exact mem_addId.mpr (Or.inr hx)
    | false =>
      rw [processSubmission_found_write h hs]
      exact mem_addId.mpr (Or.inr hx)

theorem foldl_processed_mono (tf : Int → String) (now : Int) (oa : Bool)
    (fetch : String → FetchResult) (l : List String) (acc : LoopAcc) (x : String)
    (hx : x ∈ acc.processed) :
    x ∈ (l.foldl (processSubmission tf now oa fetch) acc).processed := by
  induction l generalizing acc with
  | nil => exact hx
  | cons y ys ih =>
    exact ih _ (processSubmission_processed_mono tf now oa fetch acc y x hx)

theorem foldl_marks_found (tf : Int → String) (now : Int) (oa : Bool)
    (fetch : String → FetchResult) (l : List String) (acc : LoopAcc)
    (sid : String) (d : SubmissionDetail)
    (hl : sid ∈ l) (hf : fetch sid = .found d) :
    sid ∈ (l.foldl (processSubmission tf now oa fetch) acc).processed := by
  induction l generalizing acc with
  | nil => cases hl
  | cons y ys ih =>
    rcases List.mem_cons.mp hl with rfl | hmem
    · rw [List.foldl_cons]
      refine foldl_processed_mono tf now oa fetch ys _ sid ?_
      cases hs : (oa && (d.statusDisplay != some "Accepted")) with
      | true =>
        rw [processSubmission_found_filtered hf hs]
        exact mem_addId.mpr (Or.inl rfl)
      | false =>
        rw [processSubmission_found_write hf hs]
        exact mem_addId.mpr (Or.inl rfl)
    · rw [List.foldl_cons]
      exact ih _ hmem

theorem processSubmission_processed_sub (tf : Int → String) (now : Int) (oa : Bool)
    (fetch : String → FetchResult) (acc : LoopAcc) (sid x : String)
    (hx : x ∈ (processSubmission tf now oa fetch acc sid).processed) :
    x = sid ∨ x ∈ acc.processed := by
  cases h : fetch sid with
  | err => rw [processSubmission_err h] at hx; exact Or.inr hx
  | missing => rw [processSubmission_missing h] at hx; exact Or.inr hx
  | found d =>
    cases hs : (oa && (d.statusDisplay != some "Accepted")) with
    | true =>
      rw [processSubmission_found_filtered h hs] at hx
      exact mem_addId.mp hx
    | false =>
      rw [processSubmission_found_write h hs] at hx
      exact mem_addId.mp hx

theorem foldl_not_marked (tf : Int → String) (now : Int) (oa : Bool)
    (fetch : String → FetchResult) (l : List String) (acc : LoopAcc)
    (sid : String)
    (hf : fetch sid = .err ∨ fetch sid = .missing)
    (hx : sid ∉ acc.processed) :
    sid ∉ (l.foldl (processSubmission tf now oa fetch) acc).processed := by
  induction l generalizing acc with
  | nil => exact hx
  | cons y ys ih =>
    apply ih
    by_cases hy : y = sid
    · subst hy
      rcases hf with hf | hf
      · rw [processSubmission_err hf]; exact hx
      · rw [processSubmission_missing hf]; exact hx
    · intro hmem
      rcases processSubmission_processed_sub tf now oa fetch acc y sid hmem with h | h
      · exact hy h.symm
      · exact hx h

theorem foldl_no_write_filtered (tf : Int → String) (now : Int)
    (fetch : String → FetchResult) (l : List String) (acc : LoopAcc)
    (sid : String) (d : SubmissionDetail)
    (hf : fetch sid = .found d)
    (hd : d.statusDisplay ≠ some "Accepted")
    (hacc : ∀ w ∈ acc.writes, w.1 ≠ sid) :
    ∀ w ∈ (l.foldl (processSubmission tf now true fetch) acc).writes, w.1 ≠ sid := by
  induction l generalizing acc with
  | nil => exact hacc
  | cons y ys ih =>
    rw [List.foldl_cons]
    apply ih
    by_cases hy : y = sid
    · subst hy
      have hs : (true && (d.statusDisplay != some "Accepted")) = true := by
        simp [bne_iff_ne, hd]
      rw [processSubmission_found_filtered hf hs]
      exact hacc
    · cases h : fetch y with
      | err => rw [processSubmission_err h]; exact hacc
      | missing => rw [processSubmission_missing h]; exact hacc
      | found e =>
        cases hs : (true && (e.statusDisplay != some "Accepted")) with
        | true =>
          rw [processSubmission_found_filtered h hs]
          exact hacc
        | false =>
          rw [processSubmission_found_write h hs]
          intro w hw
          rcases List.mem_append.mp hw with hw | hw
          · exact hacc w hw
          · rcases List.mem_singleton.mp hw with rfl
            exact hy

theorem foldl_writes_char (tf : Int → String) (now : Int) (oa : Bool)
    (fetch : String → FetchResult) (l : List String) (acc : LoopAcc) :
    ∀ w ∈ (l.foldl (processSubmission tf now oa fetch) acc).writes,
      w ∈ acc.writes ∨
      ∃ d, fetch w.1 = .found d ∧
        w = (w.1, (writeEntry tf now w.1 d).1, (writeEntry tf now w.1 d).2) := by
  induction l generalizing acc with
  | nil => exact fun w hw => Or.inl hw
  | cons y ys ih =>
    rw [List.foldl_cons]
    intro w hw
    rcases ih (processSubmission tf now oa fetch acc y) w hw with hbase | hrest
    · cases h : fetch y with
      | err => rw [processSubmission_err h] at hbase; exact Or.inl hbase
      | missing => rw [processSubmission_missing h] at hbase; exact Or.inl hbase
      | found e =>
        cases hs : (oa && (e.statusDisplay != some "Accepted")) with
        | true =>
          rw [processSubmission_found_filtered h hs] at hbase
          exact Or.inl hbase
        | false =>
          rw [processSubmission_found_write h hs] at hbase
          rcases List.mem_append.mp hbase with hb | hb
          · exact Or.inl hb
          · rcases List.mem_singleton.mp hb with rfl
            exact Or.inr ⟨e, h, rfl⟩
    · exact Or.inr hrest

theorem runMain_error (tf : Int → String) (now : Int) (oa : Bool)
    (p : List String) (fetch : String → FetchResult) :
    runMain tf now oa p (.error ()) fetch = ⟨[], [], p, none, false⟩ := rfl

theorem runMain_ok_empty (tf : Int → String) (now : Int) (oa : Bool)
    (p : List String) (subs : List SubmissionSummary) (fetch : String → FetchResult)
    (h : new_ids subs p = []) :
    runMain tf now oa p (.ok subs) fetch = ⟨[], [], p, none, true⟩ := by
  have h1 : (new_ids subs p).isEmpty = true := List.isEmpty_iff.mpr h
  simp only [runMain, h1, if_true]

theorem runMain_ok_run (tf : Int → String) (now : Int) (oa : Bool)
    (p : List String) (subs : List SubmissionSummary) (fetch : String → FetchResult)
    (h : new_ids subs p ≠ []) :
    runMain tf now oa p (.ok subs) fetch =
      ⟨((new_ids subs p).reverse.foldl (processSubmission tf now oa fetch) ⟨[], [], p⟩).trace,
       ((new_ids subs p).reverse.foldl (processSubmission tf now oa fetch) ⟨[], [], p⟩).writes,
       ((new_ids subs p).reverse.foldl (processSubmission tf now oa fetch) ⟨[], [], p⟩).processed,
       some (sortedByIntKey
         ((new_ids subs p).reverse.foldl (processSubmission tf now oa fetch) ⟨[], [], p⟩).processed),
       true⟩ := by
  have h1 : (new_ids subs p).isEmpty = false := List.isEmpty_eq_false.mpr h
  simp only [runMain, h1, Bool.false_eq_true, if_false]

theorem writes_in_runMain (tf : Int → String) (now : Int) (oa : Bool)
    (p : List String) (subs : List SubmissionSummary) (fetch : String → FetchResult) :
    ∀ w ∈ (runMain tf now oa p (.ok subs) fetch).writes,
      ∃ d, fetch w.1 = .found d ∧
        w = (w.1, (writeEntry tf now w.1 d).1, (writeEntry tf now w.1 d).2) := by
  intro w hw
  by_cases h : new_ids subs p = []
  · rw [runMain_ok_empty tf now oa p subs fetch h] at hw
    cases hw
  · rw [runMain_ok_run tf now oa p subs fetch h] at hw
    rcases foldl_writes_char tf now oa fetch (new_ids subs p).reverse ⟨[], [], p⟩ w hw with
      hbase | hr
    · cases hbase
    · exact hr

/-! ### The claims -/

/-- C1, counterexample: for the detail of the claim (status Accepted,
language python3, question frontend id 1, slug two-sum, submission id
999) the script derives exactly the claimed path, but the file content
has no blank line between the nine metadata lines and the code: the
tenth line of the artifact is the first code line, so the content
differs from the claimed nine-lines-blank-line-code form exactly by the
missing blank line. -/
theorem C1_counterexample :
    (runMain tfDemo 0 true [] (Except.ok [⟨"999"⟩])
        (fun _ => FetchResult.found detTwoSum)).writes
      = [("999", "leetcode/1_two-sum/1-two-sum-999.py", contentTwoSum)] ∧
    (pyLines contentTwoSum).get? 9 = some "class Solution:" ∧
    contentTwoSum ≠ contentTwoSumClaimed := by
  refine ⟨by decide, by decide, by decide⟩

/-- C1 (amended): for a detail with status Accepted, language python3,
question frontend id 1, slug two-sum and submission id 999, the script
writes the file `leetcode/1_two-sum/1-two-sum-999.py` whose content is
exactly the nine #-prefixed metadata lines (Title, URL, Question ID,
Submission ID, Status, Language, Runtime, Memory, Timestamp) joined by
newlines, one further newline, and then the submission source code
verbatim - with no blank line before the code. -/
theorem C1_artifact_format (tf : Int → String) (title codeStr rt mem : String) (ts : Int)
    (hts : ts ≠ 0) :
    (runMain tf 0 true [] (Except.ok [⟨"999"⟩])
      (fun _ => FetchResult.found
        ⟨some codeStr, some rt, some mem, some "Accepted", some "python3", some ts,
         some ⟨some title, some "two-sum", some "1"⟩⟩)).writes
    = [("999", "leetcode/1_two-sum/1-two-sum-999.py",
        pyJoin "\n"
          ["# Title: " ++ title,
           "# URL: https://leetcode.com/problems/two-sum/",
           "# Question ID: 1",
           "# Submission ID: 999",
           "# Status: Accepted",
           "# Language: python3",
           "# Runtime: " ++ rt,
           "# Memory: " ++ mem,
           "# Timestamp: " ++ tf ts] ++ "\n" ++ codeStr)] := by
  rw [runMain_ok_run tf 0 true [] [⟨"999"⟩] _ (by decide)]
  simp only [new_ids, List.filter, List.contains, List.elem, List.map, List.reverse,
    List.reverseAux, List.foldl]
  rw [processSubmission_found_write rfl (by simp)]
  simp only [List.nil_append, writeEntry, pyOr, fstr, Option.getD]
  rw [show langLookup (pyLower "python3") = ("py", "#") by decide]
  simp only [make_header, fstr, if_neg hts]
  simp [pyJoin, String.append_assoc]

/-- Witness for C1_artifact_format at the concrete two-sum detail. -/
theorem C1_artifact_format_witness :
    (runMain tfDemo 0 true [] (Except.ok [⟨"999"⟩])
      (fun _ => FetchResult.found detTwoSum)).writes
    = [("999", "leetcode/1_two-sum/1-two-sum-999.py",
        pyJoin "\n"
          ["# Title: " ++ "Two Sum",
           "# URL: https://leetcode.com/problems/two-sum/",
           "# Question ID: 1",
           "# Submission ID: 999",
           "# Status: Accepted",
           "# Language: python3",
           "# Runtime: " ++ "52 ms",
           "# Memory: " ++ "15 MB",
           "# Timestamp: " ++ tfDemo 1600000000] ++ "\n" ++ "class Solution:\n    pass")] :=
  C1_artifact_format tfDemo "Two Sum" "class Solution:\n    pass" "52 ms" "15 MB"
    1600000000 (by decide)

/-- C2: under accepted-only mode, a fetched detail whose status display
is not Accepted produces no write event for its submission id, yet the
id is marked processed and appears in the checkpoint saved at the end of
the run. -/
theorem C2_filtered_marked (tf : Int → String) (now : Int) (processed0 : List String)
    (subs : List SubmissionSummary) (fetch : String → FetchResult)
    (sid : String) (d : SubmissionDetail)
    (h1 : sid ∈ new_ids subs processed0)
    (h2 : fetch sid = .found d)
    (h3 : d.statusDisplay ≠ some "Accepted") :
    (∀ w ∈ (runMain tf now true processed0 (.ok subs) fetch).writes, w.1 ≠ sid) ∧
    ∃ l, (runMain tf now true processed0 (.ok subs) fetch).saved = some l ∧ sid ∈ l := by
  have hne : new_ids subs processed0 ≠ [] := by
    intro h
    rw [h] at h1
    cases h1
  rw [runMain_ok_run tf now true processed0 subs fetch hne]
  constructor
  · intro w hw
    refine foldl_no_write_filtered tf now fetch (new_ids subs processed0).reverse
      ⟨[], [], processed0⟩ sid d h2 h3 ?_ w hw
    intro w hw
    cases hw
  · refine ⟨_, rfl, ?_⟩
    rw [mem_sortedByIntKey]
    exact foldl_marks_found tf now true fetch (new_ids subs processed0).reverse
      ⟨[], [], processed0⟩ sid d (List.mem_reverse.mpr h1) h2

/-- Witness for C2_filtered_marked: a Wrong Answer detail under
accepted-only mode ends up in the saved checkpoint. -/
theorem C2_filtered_marked_witness :
    "5" ∈ (runMain tfDemo 0 true [] (Except.ok [⟨"5"⟩])
      (fun _ => FetchResult.found detWrong)).saved.getD [] := by
  obtain ⟨l, hl, hm⟩ :=
    (C2_filtered_marked tfDemo 0 [] [⟨"5"⟩] (fun _ => FetchResult.found detWrong)
      "5" detWrong (by decide) rfl (by decide)).2
  rw [hl]
  exact hm

/-- C3, counterexample: the write is not a pure function of the detail
alone.  For a detail whose timestamp field is absent, the script falls
back to the current clock, so two runs over the same detail and the same
output root, started at different instants, write different bytes to the
same path (the Timestamp header line differs). -/
theorem C3_counterexample :
    (runMain tfCount 1 true [] (Except.ok [⟨"7"⟩])
        (fun _ => FetchResult.found detNoTimestamp)).writes
      = [("7", "leetcode/9_s/9-s-7.py",
          "# Title: T\n# URL: https://leetcode.com/problems/s/\n# Question ID: 9\n# Submission ID: 7\n# Status: Accepted\n# Language: python3\n# Runtime: r\n# Memory: m\n# Timestamp: 1\nx")] ∧
    (runMain tfCount 2 true [] (Except.ok [⟨"7"⟩])
        (fun _ => FetchResult.found detNoTimestamp)).writes
      = [("7", "leetcode/9_s/9-s-7.py",
          "# Title: T\n# URL: https://leetcode.com/problems/s/\n# Question ID: 9\n# Submission ID: 7\n# Status: Accepted\n# Language: python3\n# Runtime: r\n# Memory: m\n# Timestamp: 2\nx")] ∧
    ("# Title: T\n# URL: https://leetcode.com/problems/s/\n# Question ID: 9\n# Submission ID: 7\n# Status: Accepted\n# Language: python3\n# Runtime: r\n# Memory: m\n# Timestamp: 1\nx" : String)
      ≠ "# Title: T\n# URL: https://leetcode.com/problems/s/\n# Question ID: 9\n# Submission ID: 7\n# Status: Accepted\n# Language: python3\n# Runtime: r\n# Memory: m\n# Timestamp: 2\nx" := by
  refine ⟨by decide, by decide, by decide⟩

/-- C3 (amended): within one time environment (one local-time renderer
and one clock reading), the write is a pure function of the detail: any
two runs - regardless of mode, prior state, listed summaries or the
fates of other ids - that fetch the same detail for an id produce
identical write events (same path, byte-identical content) for that id. -/
theorem C3_writer_deterministic
    (tf : Int → String) (now : Int) (oa1 oa2 : Bool) (p1 p2 : List String)
    (subs1 subs2 : List SubmissionSummary) (fetch1 fetch2 : String → FetchResult)
    (sid : String) (d : SubmissionDetail) (w1 w2 : String × String × String)
    (hf1 : fetch1 sid = .found d) (hf2 : fetch2 sid = .found d)
    (hw1 : w1 ∈ (runMain tf now oa1 p1 (.ok subs1) fetch1).writes)
    (hw2 : w2 ∈ (runMain tf now oa2 p2 (.ok subs2) fetch2).writes)
    (ht1 : w1.1 = sid) (ht2 : w2.1 = sid) : w1 = w2 := by
  obtain ⟨d1, hd1, he1⟩ := writes_in_runMain tf now oa1 p1 subs1 fetch1 w1 hw1
  obtain ⟨d2, hd2, he2⟩ := writes_in_runMain tf now oa2 p2 subs2 fetch2 w2 hw2
  rw [ht1, hf1] at hd1
  rw [ht2, hf2] at hd2
  cases hd1
  cases hd2
  rw [he1, he2, ht1, ht2]

/-- Witness for C3_writer_deterministic: two runs that differ in prior
state, listed summaries and the fate of another id still produce the
same write for submission 999. -/
theorem C3_writer_deterministic_witness :
    (("999", "leetcode/1_two-sum/1-two-sum-999.py", contentTwoSum) :
        String × String × String)
      = ("999", "leetcode/1_two-sum/1-two-sum-999.py", contentTwoSum) :=
  C3_writer_deterministic tfDemo 0 true true [] ["7"] [⟨"999"⟩] [⟨"999"⟩, ⟨"5"⟩]
    (fun _ => FetchResult.found detTwoSum)
    (fun s => if s = "999" then FetchResult.found detTwoSum else FetchResult.err)
    "999" detTwoSum
    ("999", "leetcode/1_two-sum/1-two-sum-999.py", contentTwoSum)
    ("999", "leetcode/1_two-sum/1-two-sum-999.py", contentTwoSum)
    rfl (by decide) (by decide) (by decide) rfl rfl

/-- C4: an id whose detail fetch raises or whose detail comes back
absent is still visited (the loop continues over the whole reversed
new-id list) but is not marked processed: it is absent from the saved
checkpoint, so a later run will retry it. -/
theorem C4_failed_fetch_retry (tf : Int → String) (now : Int) (oa : Bool)
    (processed0 : List String) (subs : List SubmissionSummary)
    (fetch : String → FetchResult) (sid : String)
    (h1 : sid ∈ new_ids subs processed0)
    (h2 : fetch sid = .err ∨ fetch sid = .missing) :
    (runMain tf now oa processed0 (.ok subs) fetch).trace
      = (new_ids subs processed0).reverse ∧
    ∃ l, (runMain tf now oa processed0 (.ok subs) fetch).saved = some l ∧ sid ∉ l := by
  have hne : new_ids subs processed0 ≠ [] := by
    intro h
    rw [h] at h1
    cases h1
  rw [runMain_ok_run tf now oa processed0 subs fetch hne]
  constructor
  · rw [foldl_trace]
    rfl
  · refine ⟨_, rfl, ?_⟩
    rw [mem_sortedByIntKey]
    exact foldl_not_marked tf now oa fetch (new_ids subs processed0).reverse
      ⟨[], [], processed0⟩ sid h2 (mem_new_ids.mp h1).2

/-- Witness for C4_failed_fetch_retry: a failing fetch leaves the id out
of the saved checkpoint while the loop still visited it. -/
theorem C4_failed_fetch_retry_witness :
    (runMain tfDemo 0 true [] (Except.ok [⟨"5"⟩]) (fun _ => FetchResult.err)).trace
        = ["5"] ∧
    "5" ∉ (runMain tfDemo 0 true [] (Except.ok [⟨"5"⟩])
        (fun _ => FetchResult.err)).saved.getD [] := by
  have h := C4_failed_fetch_retry tfDemo 0 true [] [⟨"5"⟩] (fun _ => FetchResult.err)
    "5" (by decide) (Or.inl rfl)
  constructor
  · rw [h.1]
    decide
  · obtain ⟨l, hl, hm⟩ := h.2
    rw [hl]
    exact hm

/-- C5: when the pagination of the lister ends in an exception (network
or decode failure on any page), the whole run aborts: no id is visited,
no file is written, the checkpoint is not saved, and the process exits
abnormally, with the loaded processed set untouched. -/
theorem C5_lister_failure_aborts (tf : Int → String) (now : Int) (oa : Bool)
    (p : List String) (remote : Nat → Except Unit (List SubmissionSummary × Bool))
    (fuel : Nat) (fetch : String → FetchResult)
    (h : fetch_submission_pages remote fuel = some (Except.error ())) :
    full_run tf now oa p remote fuel fetch = some ⟨[], [], p, none, false⟩ := by
  unfold full_run
  rw [h]
  rfl

/-- Witness for C5_lister_failure_aborts: a remote that fails on the
first page aborts the run before any effect. -/
theorem C5_lister_failure_aborts_witness :
    full_run tfDemo 0 true ["1"] (fun _ => Except.error ()) 1 (fun _ => FetchResult.err)
      = some ⟨[], [], ["1"], none, false⟩ :=
  C5_lister_failure_aborts tfDemo 0 true ["1"] (fun _ => Except.error ()) 1
    (fun _ => FetchResult.err) rfl

/-- C6: whenever a run reaches `save_state`, the saved id list contains
every id of the processed set loaded at the start of the run: the
in-memory set only ever gains ids during the loop, and the save writes
the sorted whole of it. -/
theorem C6_processed_monotone (tf : Int → String) (now : Int) (oa : Bool)
    (p : List String) (listing : Except Unit (List SubmissionSummary))
    (fetch : String → FetchResult) (l : List String)
    (h : (runMain tf now oa p listing fetch).saved = some l) :
    ∀ x ∈ p, x ∈ l := by
  cases listing with
  | error e =>
    cases e
    rw [runMain_error] at h
    cases h
  | ok subs =>
    by_cases hne : new_ids subs p = []
    · rw [runMain_ok_empty tf now oa p subs fetch hne] at h
      cases h
    · rw [runMain_ok_run tf now oa p subs fetch hne] at h
      injection h with h
      intro x hx
      rw [← h, mem_sortedByIntKey]
      exact foldl_processed_mono tf now oa fetch (new_ids subs p).reverse
        ⟨[], [], p⟩ x hx

/-- Witness for C6_processed_monotone: a previously processed id
survives into the checkpoint saved by a later run. -/
theorem C6_processed_monotone_witness :
    "3" ∈ (runMain tfDemo 0 true ["3"] (Except.ok [⟨"5"⟩])
      (fun _ => FetchResult.err)).saved.getD [] := by
  have h : (runMain tfDemo 0 true ["3"] (Except.ok [⟨"5"⟩])
      (fun _ => FetchResult.err)).saved = some ["3"] := by decide
  rw [h]
  exact C6_processed_monotone tfDemo 0 true ["3"] (Except.ok [⟨"5"⟩])
    (fun _ => FetchResult.err) ["3"] h "3" (by decide)

/-- C7: the writer takes extension and comment leader from the fixed
LANG_EXT mapping for mapped tags, and falls back to extension txt and
leader // for any unmapped tag such as brainfuck. -/
theorem C7_language_mapping :
    langLookup "brainfuck" = ("txt", "//") ∧
    (∀ tag, LANG_EXT.lookup tag = none → langLookup tag = ("txt", "//")) ∧
    (∀ tag pr, LANG_EXT.lookup tag = some pr → langLookup tag = pr) := by
  refine ⟨by decide, ?_, ?_⟩
  · intro tag h
    unfold langLookup
    rw [h]
    rfl
  · intro tag pr h
    unfold langLookup
    rw [h]
    rfl

/-- Witness for C7_language_mapping at two concrete tags, one unmapped
and one mapped. -/
theorem C7_language_mapping_witness :
    langLookup "brainfuck" = ("txt", "//") ∧ langLookup "python3" = ("py", "#") :=
  ⟨C7_language_mapping.1, C7_language_mapping.2.2 "python3" ("py", "#") (by decide)⟩

/-- C8: when the lister delivers no submissions, or every delivered id
is already in the loaded processed set, the run stops right after the
diff: no id is visited, nothing is written, the checkpoint file is not
rewritten, and the process exits normally. -/
theorem C8_no_new_short_circuit (tf : Int → String) (now : Int) (oa : Bool)
    (p : List String) (subs : List SubmissionSummary) (fetch : String → FetchResult)
    (h : subs = [] ∨ ∀ s ∈ subs, s.id ∈ p) :
    runMain tf now oa p (.ok subs) fetch = ⟨[], [], p, none, true⟩ := by
  apply runMain_ok_empty
  rcases h with rfl | h
  · rfl
  · rw [new_ids, List.map_eq_nil_iff, List.filter_eq_nil_iff]
    intro s hs
    have hc : p.contains s.id = true := List.elem_iff.mpr (h s hs)
    simp [hc]
    exact h s hs

/-- Witness for C8_no_new_short_circuit: an empty listing yields an
effect-free successful run. -/
theorem C8_no_new_short_circuit_witness :
    runMain tfDemo 0 true ["3"] (Except.ok []) (fun _ => FetchResult.err)
      = ⟨[], [], ["3"], none, true⟩ :=
  C8_no_new_short_circuit tfDemo 0 true ["3"] [] (fun _ => FetchResult.err) (Or.inl rfl)

/-- C9: the loop visits the new ids in exactly the reverse of the order
in which the lister delivered their summaries: the visit trace of every
run equals the reversal of the filtered delivery-ordered id list. -/
theorem C9_oldest_first (tf : Int → String) (now : Int) (oa : Bool)
    (p : List String) (subs : List SubmissionSummary) (fetch : String → FetchResult) :
    (runMain tf now oa p (.ok subs) fetch).trace = (new_ids subs p).reverse := by
  by_cases h : new_ids subs p = []
  · rw [runMain_ok_empty tf now oa p subs fetch h, h]
    rfl
  · rw [runMain_ok_run tf now oa p subs fetch h]
    rw [show (⟨((new_ids subs p).reverse.foldl (processSubmission tf now oa fetch) ⟨[], [], p⟩).trace,
        ((new_ids subs p).reverse.foldl (processSubmission tf now oa fetch) ⟨[], [], p⟩).writes,
        ((new_ids subs p).reverse.foldl (processSubmission tf now oa fetch) ⟨[], [], p⟩).processed,
        some (sortedByIntKey
          ((new_ids subs p).reverse.foldl (processSubmission tf now oa fetch) ⟨[], [], p⟩).processed),
        true⟩ : RunResult).trace
      = ((new_ids subs p).reverse.foldl (processSubmission tf now oa fetch) ⟨[], [], p⟩).trace
      from rfl]
    rw [foldl_trace]
    rfl

/-- C10: a detail whose question object is absent (or null) still
produces an artifact: title defaults to unknown-title, the slug to
unknown- (the frontend id being absent along with the question), the
question id to the empty string, and an absent code field is written as
the empty string, so the content is the bare header. -/
theorem C10_missing_question_defaults (tf : Int → String) (sid : String)
    (rt mem : Option String) :
    (runMain tf 0 true [] (Except.ok [⟨sid⟩])
      (fun _ => FetchResult.found ⟨none, rt, mem, some "Accepted", some "python3",
        some 100, none⟩)).writes
    = [(sid, "leetcode/_unknown-/-unknown--" ++ sid ++ ".py",
        pyJoin "\n"
          ["# Title: unknown-title",
           "# URL: https://leetcode.com/problems/unknown-/",
           "# Question ID: ",
           "# Submission ID: " ++ sid,
           "# Status: Accepted",
           "# Language: python3",
           "# Runtime: " ++ fstr rt,
           "# Memory: " ++ fstr mem,
           "# Timestamp: " ++ tf 100] ++ "\n")] := by
  rw [runMain_ok_run tf 0 true [] [⟨sid⟩] _
    (by rw [show new_ids [⟨sid⟩] [] = [sid] from rfl]; simp)]
  rw [show new_ids [⟨sid⟩] [] = [sid] from rfl]
  simp only [List.reverse, List.reverseAux, List.foldl]
  rw [processSubmission_found_write rfl (by simp)]
  simp only [List.nil_append, writeEntry, pyOr, fstr, Option.getD]
  rw [show langLookup (pyLower "python3") = ("py", "#") by decide]
  simp only [make_header, fstr]
  simp [pyJoin, String.append_assoc]
